import Mathlib

/-!
Verification of the OpenCDA task-offloading scheduler
(`opencda/core/task_offloading/offloading_scheduler.py`).

The scheduler is embedded shallowly:

* the positioning collaborator (the simulator world) is modelled by handing
  each invocation the filtered base-station actor list together with the
  Euclidean distance of each actor to the (freshly stored) ego position,
  as a list of `(actor id, distance)` pairs;
* the network collaborator is modelled by a response oracle
  `String → MetricsResp` giving, per queried node, the reply of the
  metrics endpoint; outgoing POSTs are collected in lists of `Request`;
* Python `time()` is modelled by a timestamp parameter;
* Python exceptions (KeyError on a missing mapping, IndexError on an
  empty-list subscript) are modelled with `Except String`;
* Python `sorted` is a stable sort and is embedded as Mathlib
  `List.insertionSort`, which is likewise stable;
* floats are modelled as rationals.
-/

namespace OffloadingScheduler

/-- A 3D coordinate supplied by the positioning layer; the scheduler stores
it and never mutates it. -/
structure Position where
  x : ℚ
  y : ℚ
  z : ℚ
deriving DecidableEq

/-- Distances are nonnegative scalars; we embed them as rationals. -/
abbrev Distance := ℚ

/-- Static class attribute `host_ips`: role name to IP address. -/
def host_ips : List (String × String) :=
  [("edge1", "138.246.237.7"),
   ("edge2", "138.246.236.237"),
   ("edge3", "138.246.237.5")]

/-- Static class attribute `app_types`: task type to cloud fallback URL. -/
def app_types : List (String × String) :=
  [("mobilenet", "https://serverless-mobilenet-6ag2jbmdqa-uc.a.run.app"),
   ("squeezenet", "https://serverless-squeezenet-6ag2jbmdqa-uc.a.run.app"),
   ("shufflenet", "https://serverless-shufflenet-6ag2jbmdqa-uc.a.run.app"),
   ("binaryalert", "https://serverless-binaryalert-6ag2jbmdqa-uc.a.run.app")]

/-- Static class attribute `time_limit` (the latency ceiling). -/
def time_limit : ℚ := 15

/-- Static class attribute `proxy_port`. -/
def proxy_port : Nat := 8280

/-- Static class attribute `metric_port`. -/
def metric_port : Nat := 8180

/-- The `max_workers` argument of the `ThreadPoolExecutor` in both
dispatch loops. -/
def max_workers : Nat := 4

/-- Local variable `bs_coverage_thresh` of `offload_to_optimal` (line 61). -/
def optimal_bs_coverage_thresh : ℚ := 120

/-- Local variable `bs_coverage_thresh` of `offload_to_nearest` (line 99). -/
def nearest_bs_coverage_thresh : ℚ := 120

/-- JSON body of an outgoing POST. -/
inductive Body where
  | initBody (request_start : ℚ)
  | proxyBody (node : String) (app : String) (request_start : ℚ)
deriving DecidableEq

/-- One outgoing POST: the URL and the optional body
(`requests.post(url)` without data has no body). -/
structure Request where
  url : String
  body : Option Body
deriving DecidableEq

/-- Decoded JSON reply of a metrics endpoint:
`{pod_number, pod_instances: {instance id: {p50_res_time}}}` together with
the HTTP status code of the call. -/
structure MetricsResp where
  status_code : Nat
  pod_number : Nat
  pod_instances : List (String × ℚ)
deriving DecidableEq

/-- Mutable per-instance state of the scheduler object.  `self.vehicle` is
kept as its id (the only attribute read from it), `self.base_station_roles`
is the id-to-role configuration map, `self.counter` is the dispatch-cycle
counter (class attribute `counter = 1`, thereafter updated per instance by
`self.counter += 1`), and `self.ego_pos` is the stored ego position. -/
structure SchedulerState where
  vehicle_id : Nat
  base_station_roles : List (Nat × String)
  counter : Nat
  ego_pos : Option Position
deriving DecidableEq

/-- `__init__`: the counter starts at the class value 1 and no ego position
is stored yet. -/
def initial_state (vehicle_id : Nat) (roles : List (Nat × String)) :
    SchedulerState :=
  { vehicle_id := vehicle_id
    base_station_roles := roles
    counter := 1
    ego_pos := none }

/-- The sort key of `sort_base_stations`:
`sorted(bs_dict.items(), key = lambda kv: (kv[1], kv[0]))`, i.e.
lexicographic order on (distance, id). -/
def bs_key_le (a b : Nat × Distance) : Prop :=
  a.2 < b.2 ∨ (a.2 = b.2 ∧ a.1 ≤ b.1)

instance : DecidableRel bs_key_le := fun a b => by
  unfold bs_key_le; exact inferInstance

/-- `sort_base_stations`: build `(id, distance)` pairs for every base
station actor and sort them by (distance, id).  The actor list and the
distance of each actor to the stored ego position come from the positioning
collaborator; actor ids are distinct, so the Python dict build is the
identity on the pair list. -/
def sort_base_stations (bss : List (Nat × Distance)) : List (Nat × Distance) :=
  List.insertionSort bs_key_le bss

/-- `find_nearest_base_station`:
`sorted_bs_list[0] if sorted_bs_list else None`. -/
def find_nearest_base_station (bss : List (Nat × Distance)) :
    Option (Nat × Distance) :=
  (sort_base_stations bss).head?

/-- The coverage test guarding both offload paths:
`if nearest_bs and nearest_bs[1] < bs_coverage_thresh` (lines 67 and 105). -/
def covered (bss : List (Nat × Distance)) (thresh : ℚ) : Bool :=
  match find_nearest_base_station bss with
  | none => false
  | some nb => decide (nb.2 < thresh)

/-- Aggregation of one metrics reply inside `get_metrics`: skip the node on
a non-200 status, skip it when `pod_number == 0`, otherwise return the sum
of the `p50_res_time` fields divided by `pod_number`. -/
def node_metric (resp : MetricsResp) : Option ℚ :=
  if resp.status_code ≠ 200 then none
  else if resp.pod_number = 0 then none
  else some (((resp.pod_instances.map Prod.snd).sum) / (resp.pod_number : ℚ))

/-- The queried nodes: `self.host_ips.keys()`. -/
def edge_nodes : List String := host_ips.map Prod.fst

/-- `get_metrics`: one metrics POST per configured edge node, through the
entry base station; the resulting dict maps each node that replied with
status 200 and a nonzero pod count to its mean p50 latency, in query
order.  The response oracle `resp` stands for the network collaborator. -/
def get_metrics (resp : String → MetricsResp) : List (String × ℚ) :=
  edge_nodes.filterMap fun node =>
    (node_metric (resp node)).map fun v => (node, v)

/-- The sort key of the optimal-node selection:
`sorted(edge_metrics.items(), key = lambda m: m[1])`. -/
def metric_le (a b : String × ℚ) : Prop := a.2 ≤ b.2

instance : DecidableRel metric_le := fun a b => by
  unfold metric_le; exact inferInstance

/-- The stable sort of the metrics dict items by mean latency. -/
def sorted_by_metric (em : List (String × ℚ)) : List (String × ℚ) :=
  List.insertionSort metric_le em

/-- URL of a proxy offload request:
`http://{bs_ip}:{self.proxy_port}/proxy`. -/
def proxy_url (bs_ip : String) : String :=
  "http://" ++ bs_ip ++ ":" ++ toString proxy_port ++ "/proxy"

/-- One iteration of the per-app loop of `offload_to_optimal` (lines
66 to 87).  Returns the posts issued immediately inside the loop body and
the optional entry appended to `list_of_urls`. -/
def offload_app_optimal (roles : List (Nat × String))
    (resp : String → MetricsResp) (ts : ℚ) (bss : List (Nat × Distance))
    (app appUrl : String) : Except String (List Request × Option Request) :=
  match find_nearest_base_station bss with
  | some nb =>
    if nb.2 < optimal_bs_coverage_thresh then
      match roles.lookup nb.1 with
      | none => .error "KeyError: base_station_roles"
      | some bs_hostname =>
        match host_ips.lookup bs_hostname with
        | none => .error "KeyError: host_ips"
        | some bs_ip =>
          let edge_metrics := get_metrics resp
          match (sorted_by_metric edge_metrics).head? with
          | none => .error "IndexError: list index out of range"
          | some opt =>
            match edge_metrics.lookup opt.1 with
            | none => .error "KeyError: edge_metrics"
            | some lat =>
              if lat > time_limit then
                .ok ([⟨appUrl ++ "/init", some (.initBody ts)⟩,
                      ⟨appUrl ++ "/run", none⟩], none)
              else
                .ok ([], some ⟨proxy_url bs_ip,
                               some (.proxyBody opt.1 app ts)⟩)
    else .ok ([], none)
  | none => .ok ([], none)

/-- One iteration of the per-app loop of `offload_to_nearest` (lines
104 to 121).  The cloud branch is commented out in the source, so a covered
vehicle always appends a proxy request to the nearest station and an
uncovered one only logs. -/
def offload_app_nearest (roles : List (Nat × String))
    (resp : String → MetricsResp) (ts : ℚ) (bss : List (Nat × Distance))
    (app : String) : Except String (Option Request) :=
  match find_nearest_base_station bss with
  | some nb =>
    if nb.2 < nearest_bs_coverage_thresh then
      match roles.lookup nb.1 with
      | none => .error "KeyError: base_station_roles"
      | some bs_hostname =>
        match host_ips.lookup bs_hostname with
        | none => .error "KeyError: host_ips"
        | some _bs_ip =>
          let _edge_metrics := get_metrics resp
          .ok (some ⟨proxy_url _bs_ip, some (.proxyBody bs_hostname app ts)⟩)
    else .ok none
  | none => .ok none

/-- The decision loop of `offload_to_optimal` over all task types,
accumulating the immediately issued cloud posts and `list_of_urls`. -/
def decide_optimal (roles : List (Nat × String))
    (resp : String → String → MetricsResp) (ts : ℚ)
    (bss : List (Nat × Distance)) :
    Except String (List Request × List Request) :=
  app_types.foldlM
    (fun acc p =>
      (offload_app_optimal roles (resp p.1) ts bss p.1 p.2).map
        fun r => (acc.1 ++ r.1, acc.2 ++ r.2.toList))
    ([], [])

/-- The decision loop of `offload_to_nearest` over all task types. -/
def decide_nearest (roles : List (Nat × String))
    (resp : String → String → MetricsResp) (ts : ℚ)
    (bss : List (Nat × Distance)) : Except String (List Request) :=
  app_types.foldlM
    (fun acc p =>
      (offload_app_nearest roles (resp p.1) ts bss p.1).map
        fun r => acc ++ r.toList)
    []

/-- The posts issued by the dispatch loop
`for _ in range(self.counter): pool.map(self.post_url, list_of_urls)`:
the accumulated batch is replayed `counter` times, unconditionally. -/
def dispatch_posts (counter : Nat) (reqs : List Request) : List Request :=
  (List.replicate counter reqs).flatten

/-- The observable outcome of one top-level offload invocation. -/
structure OffloadOutcome where
  immediate : List Request
  batch : List Request
  dispatched : List Request
deriving DecidableEq

/-- `offload_to_optimal`: store the ego position, run the decision loop
over the task types, replay the accumulated batch `counter` times through
the worker pool, then increment the counter.  An exception raised in the
decision loop propagates before the counter increment. -/
def offload_to_optimal (st : SchedulerState) (ego : Position)
    (bss : List (Nat × Distance)) (resp : String → String → MetricsResp)
    (ts : ℚ) : Except String OffloadOutcome × SchedulerState :=
  match decide_optimal st.base_station_roles resp ts bss with
  | .error e => (.error e, { st with ego_pos := some ego })
  | .ok (imm, batch) =>
    (.ok ⟨imm, batch, dispatch_posts st.counter batch⟩,
     { st with ego_pos := some ego, counter := st.counter + 1 })

/-- `offload_to_nearest`: same shape as `offload_to_optimal` with the
nearest-only decision loop. -/
def offload_to_nearest (st : SchedulerState) (ego : Position)
    (bss : List (Nat × Distance)) (resp : String → String → MetricsResp)
    (ts : ℚ) : Except String OffloadOutcome × SchedulerState :=
  match decide_nearest st.base_station_roles resp ts bss with
  | .error e => (.error e, { st with ego_pos := some ego })
  | .ok batch =>
    (.ok ⟨[], batch, dispatch_posts st.counter batch⟩,
     { st with ego_pos := some ego, counter := st.counter + 1 })

/-- One invocation worth of external inputs. -/
structure Invocation where
  ego : Position
  bss : List (Nat × Distance)
  resp : String → String → MetricsResp
  ts : ℚ

/-- A sequence of top-level `offload_to_optimal` invocations, returning the
final state and the outcome of each invocation. -/
def run_optimal : SchedulerState → List Invocation →
    SchedulerState × List (Except String OffloadOutcome)
  | st, [] => (st, [])
  | st, i :: is =>
    let r := offload_to_optimal st i.ego i.bss i.resp i.ts
    let rest := run_optimal r.2 is
    (rest.1, r.1 :: rest.2)

/-- The counter value after one invocation: `self.counter += 1` runs only
when the decision loop returned without an exception. -/
def next_counter (e : Except String OffloadOutcome) (c : Nat) : Nat :=
  match e with
  | .ok _ => c + 1
  | .error _ => c

/-- First element of the list attaining the minimal second component;
this is what `sorted(items, key = lambda m: m[1])[0]` selects, since
Python sorted is stable. -/
def sel_min (x : String × ℚ) (l : List (String × ℚ)) : String × ℚ :=
  l.foldl (fun best y => if y.2 < best.2 then y else best) x

/- Concrete inputs used by the witness and counterexample theorems. -/

/-- A metrics oracle on which every node is unreachable (status 500). -/
def resp_down : String → String → MetricsResp := fun _ _ => ⟨500, 0, []⟩

/-- A metrics oracle on which only edge1 replies, with one pod of p50
latency 5. -/
def resp_edge1 : String → MetricsResp := fun node =>
  if node = "edge1" then ⟨200, 1, [("pod-a", 5)]⟩ else ⟨500, 0, []⟩

/-- Example configuration: actor 1 is the base station with role edge1. -/
def roles_ex : List (Nat × String) := [(1, "edge1")]

/-- Example scheduler freshly constructed for vehicle 7. -/
def st_ex : SchedulerState := initial_state 7 roles_ex

/-- Example ego position. -/
def ego_ex : Position := ⟨0, 0, 0⟩

/-- Example invocation with no base stations known. -/
def inv_ex : Invocation := ⟨ego_ex, [], resp_down, 0⟩

/-! ## Helper lemmas -/

lemma sel_min_unfold (x y : String × ℚ) (t : List (String × ℚ)) :
    sel_min x (y :: t) = sel_min (if y.2 < x.2 then y else x) t := rfl

lemma sel_min_nil (x : String × ℚ) : sel_min x [] = x := rfl

lemma sel_min_cons (t : List (String × ℚ)) : ∀ x y : String × ℚ,
    sel_min x (y :: t) = if (sel_min y t).2 < x.2 then sel_min y t else x := by
  induction t with
  | nil => intro x y; simp [sel_min_unfold, sel_min_nil]
  | cons z u ih =>
    intro x y
    rw [sel_min_unfold, ih _ z, ih y z]
    split_ifs <;> first | rfl | (exfalso; linarith)

lemma sel_min_mem (l : List (String × ℚ)) : ∀ x, sel_min x l ∈ x :: l := by
  induction l with
  | nil => intro x; simp [sel_min_nil]
  | cons y t ih =>
    intro x
    rw [sel_min_unfold]
    have h := ih (if y.2 < x.2 then y else x)
    rcases List.mem_cons.mp h with h | h
    · rw [h]; split_ifs <;> simp
    · simp [h]

lemma sel_min_le (l : List (String × ℚ)) : ∀ x, ∀ q ∈ x :: l, (sel_min x l).2 ≤ q.2 := by
  induction l with
  | nil =>
    intro x q hq
    rcases List.mem_cons.mp hq with h | h
    · rw [h, sel_min_nil]
    · cases h
  | cons y t ih =>
    intro x q hq
    rw [sel_min_cons]
    rcases List.mem_cons.mp hq with h | h
    · subst h
      split_ifs with hlt
      · exact hlt.le
      · rfl
    · have hm := ih y q h
      split_ifs with hlt
      · exact hm
      · exact le_trans (not_lt.mp hlt) hm

lemma sel_min_first (l : List (String × ℚ)) : ∀ x,
    (x :: l).Pairwise (fun a b : String × ℚ => a.1 < b.1) →
    ∀ q ∈ x :: l, q.2 = (sel_min x l).2 → (sel_min x l).1 ≤ q.1 := by
  induction l with
  | nil =>
    intro x _ q hq _
    rcases List.mem_cons.mp hq with h | h
    · rw [h, sel_min_nil]
    · cases h
  | cons y t ih =>
    intro x hp q hq heq
    obtain ⟨hx, hp'⟩ := List.pairwise_cons.mp hp
    rw [sel_min_cons] at heq ⊢
    by_cases hlt : (sel_min y t).2 < x.2
    · rw [if_pos hlt] at heq ⊢
      rcases List.mem_cons.mp hq with h | h
      · exfalso; rw [h] at heq; linarith
      · exact ih y hp' q h heq
    · rw [if_neg hlt] at heq ⊢
      rcases List.mem_cons.mp hq with h | h
      · rw [h]
      · exact (hx q h).le

lemma head?_orderedInsert (a : String × ℚ) (s : List (String × ℚ)) :
    (List.orderedInsert metric_le a s).head?
      = some (match s.head? with
              | none => a
              | some b => if a.2 ≤ b.2 then a else b) := by
  cases s with
  | nil => rfl
  | cons b t =>
    simp only [List.orderedInsert, List.head?_cons]
    by_cases h : metric_le a b
    · rw [if_pos h]; unfold metric_le at h; simp [h]
    · rw [if_neg h]; unfold metric_le at h; simp [h]

lemma head?_insertionSort_metric (l : List (String × ℚ)) : ∀ x,
    (List.insertionSort metric_le (x :: l)).head? = some (sel_min x l) := by
  induction l with
  | nil => intro x; rfl
  | cons y t ih =>
    intro x
    show (List.orderedInsert metric_le x (List.insertionSort metric_le (y :: t))).head?
        = some (sel_min x (y :: t))
    rw [head?_orderedInsert, ih y, sel_min_cons]
    dsimp only
    split_ifs <;> first | rfl | (exfalso; linarith)

lemma optimal_head (em : List (String × ℚ)) (hne : em ≠ []) :
    ∃ opt, (sorted_by_metric em).head? = some opt ∧ opt ∈ em
      ∧ (∀ q ∈ em, opt.2 ≤ q.2)
      ∧ (em.Pairwise (fun a b : String × ℚ => a.1 < b.1) →
          ∀ q ∈ em, q.2 = opt.2 → opt.1 ≤ q.1) := by
  cases em with
  | nil => exact absurd rfl hne
  | cons x l =>
    exact ⟨sel_min x l, head?_insertionSort_metric l x, sel_min_mem l x,
      sel_min_le l x, fun hp q hq => sel_min_first l x hp q hq⟩

lemma node_metric_eq_some (r : MetricsResp) (v : ℚ) :
    node_metric r = some v
      ↔ r.status_code = 200 ∧ r.pod_number ≠ 0
        ∧ v = ((r.pod_instances.map Prod.snd).sum) / (r.pod_number : ℚ) := by
  unfold node_metric
  split_ifs with h1 h2
  · simp [h1]
  · simp [h2]
  · have h1' : r.status_code = 200 := not_ne_iff.mp h1
    simp [h1', h2, eq_comm]

lemma mem_get_metrics (resp : String → MetricsResp) (node : String) (v : ℚ) :
    (node, v) ∈ get_metrics resp ↔ node ∈ edge_nodes ∧ node_metric (resp node) = some v := by
  unfold get_metrics
  rw [List.mem_filterMap]
  constructor
  · rintro ⟨a, ha, h⟩
    rcases Option.map_eq_some'.mp h with ⟨w, hw, hpair⟩
    have hnode : a = node := congrArg Prod.fst hpair
    have hval : w = v := congrArg Prod.snd hpair
    subst hnode; subst hval
    exact ⟨ha, hw⟩
  · rintro ⟨ha, hv⟩
    exact ⟨node, ha, by rw [hv]; rfl⟩

lemma edge_nodes_pairwise : edge_nodes.Pairwise (fun a b : String => a < b) := by
  have h12 : ("edge1" : String) < "edge2" := by rw [String.lt_iff_toList_lt]; decide
  have h13 : ("edge1" : String) < "edge3" := by rw [String.lt_iff_toList_lt]; decide
  have h23 : ("edge2" : String) < "edge3" := by rw [String.lt_iff_toList_lt]; decide
  unfold edge_nodes host_ips
  simp [List.pairwise_cons, h12, h13, h23]
  decide

lemma get_metrics_names (resp : String → MetricsResp) :
    (get_metrics resp).Pairwise (fun a b : String × ℚ => a.1 < b.1) := by
  unfold get_metrics
  rw [List.pairwise_filterMap]
  refine edge_nodes_pairwise.imp ?_
  intro a b hab x hx y hy
  rcases Option.map_eq_some'.mp hx with ⟨w, _, hpair⟩
  rcases Option.map_eq_some'.mp hy with ⟨w', _, hpair'⟩
  rw [← hpair, ← hpair']
  exact hab

lemma lookup_eq_of_pairwise {l : List (String × ℚ)}
    (hl : l.Pairwise (fun a b : String × ℚ => a.1 < b.1)) :
    ∀ p ∈ l, l.lookup p.1 = some p.2 := by
  induction l with
  | nil => intro p hp; cases hp
  | cons x t ih =>
    intro p hp
    obtain ⟨hx, hl'⟩ := List.pairwise_cons.mp hl
    obtain ⟨a, b⟩ := x
    rcases List.mem_cons.mp hp with h | h
    · rw [h]
      simp [List.lookup]
    · have hne : p.1 ≠ a := by
        have := hx p h
        exact fun e => absurd (e ▸ this) (lt_irrefl _)
      rw [List.lookup_cons]
      have : (p.1 == a) = false := beq_eq_false_iff_ne.mpr hne
      rw [this]
      exact ih hl' p h

lemma get_metrics_expand (resp : String → MetricsResp) :
    get_metrics resp
      = ((node_metric (resp "edge1")).map fun v => (("edge1" : String), v)).toList
        ++ ((node_metric (resp "edge2")).map fun v => (("edge2" : String), v)).toList
        ++ ((node_metric (resp "edge3")).map fun v => (("edge3" : String), v)).toList := by
  simp only [get_metrics, edge_nodes, host_ips, List.map_cons, List.map_nil,
    List.filterMap_cons, List.filterMap_nil]
  cases node_metric (resp "edge1") <;> cases node_metric (resp "edge2") <;>
    cases node_metric (resp "edge3") <;> simp

lemma get_metrics_resp_edge1 : get_metrics resp_edge1 = [("edge1", 5)] := by
  have h1 : node_metric (resp_edge1 "edge1") = some 5 := by
    simp [resp_edge1, node_metric]
  have h2 : node_metric (resp_edge1 "edge2") = none := by simp [resp_edge1, node_metric]
  have h3 : node_metric (resp_edge1 "edge3") = none := by simp [resp_edge1, node_metric]
  rw [get_metrics_expand, h1, h2, h3]
  rfl

lemma get_metrics_resp_down (app : String) : get_metrics (resp_down app) = [] := by
  have h : ∀ node, node_metric (resp_down app node) = none := by
    intro node; simp [resp_down, node_metric]
  rw [get_metrics_expand, h, h, h]
  rfl



/-! ## Order instances and program lemmas -/

instance : IsTotal (Nat × Distance) bs_key_le := by
  constructor
  intro a b
  unfold bs_key_le
  rcases lt_trichotomy a.2 b.2 with h | h | h
  · exact Or.inl (Or.inl h)
  · rcases le_total a.1 b.1 with h' | h'
    · exact Or.inl (Or.inr ⟨h, h'⟩)
    · exact Or.inr (Or.inr ⟨h.symm, h'⟩)
  · exact Or.inr (Or.inl h)

instance : IsTrans (Nat × Distance) bs_key_le := by
  constructor
  intro a b c hab hbc
  unfold bs_key_le at *
  rcases hab with h1 | ⟨h1, h1'⟩ <;> rcases hbc with h2 | ⟨h2, h2'⟩
  · exact Or.inl (lt_trans h1 h2)
  · exact Or.inl (h2 ▸ h1)
  · exact Or.inl (h1 ▸ h2)
  · exact Or.inr ⟨h1.trans h2, h1'.trans h2'⟩

lemma offload_to_optimal_state (st : SchedulerState) (ego : Position)
    (bss : List (Nat × Distance)) (resp : String → String → MetricsResp) (ts : ℚ) :
    (offload_to_optimal st ego bss resp ts).2
      = { st with
          ego_pos := some ego
          counter := next_counter (offload_to_optimal st ego bss resp ts).1 st.counter } := by
  unfold offload_to_optimal
  cases h : decide_optimal st.base_station_roles resp ts bss with
  | error e => rfl
  | ok v => obtain ⟨imm, batch⟩ := v; rfl

lemma offload_to_nearest_state (st : SchedulerState) (ego : Position)
    (bss : List (Nat × Distance)) (resp : String → String → MetricsResp) (ts : ℚ) :
    (offload_to_nearest st ego bss resp ts).2
      = { st with
          ego_pos := some ego
          counter := next_counter (offload_to_nearest st ego bss resp ts).1 st.counter } := by
  unfold offload_to_nearest
  cases h : decide_nearest st.base_station_roles resp ts bss with
  | error e => rfl
  | ok batch => rfl

lemma length_dispatch_posts (c : Nat) (reqs : List Request) :
    (dispatch_posts c reqs).length = reqs.length * c := by
  simp [dispatch_posts, List.length_flatten, List.map_replicate, List.sum_replicate,
    smul_eq_mul, Nat.mul_comm]

lemma mem_dispatch_posts (c : Nat) (reqs : List Request) (r : Request) :
    r ∈ dispatch_posts c reqs ↔ 0 < c ∧ r ∈ reqs := by
  constructor
  · intro h
    obtain ⟨l, hl, hrl⟩ := List.mem_flatten.mp h
    obtain ⟨hc, rfl⟩ := List.mem_replicate.mp hl
    exact ⟨Nat.pos_of_ne_zero hc, hrl⟩
  · rintro ⟨hc, hr⟩
    exact List.mem_flatten.mpr
      ⟨reqs, List.mem_replicate.mpr ⟨Nat.pos_iff_ne_zero.mp hc, rfl⟩, hr⟩

lemma counter_run_optimal : ∀ (invs : List Invocation) (st : SchedulerState),
    (∀ e ∈ (run_optimal st invs).2, ∃ o, e = .ok o) →
    (run_optimal st invs).1.counter = st.counter + invs.length := by
  intro invs
  induction invs with
  | nil => intro st _; rfl
  | cons i is ih =>
    intro st h
    have hhead := h (offload_to_optimal st i.ego i.bss i.resp i.ts).1
      (by simp [run_optimal])
    obtain ⟨o, ho⟩ := hhead
    have htail : ∀ e ∈ (run_optimal (offload_to_optimal st i.ego i.bss i.resp i.ts).2 is).2,
        ∃ o, e = .ok o := by
      intro e he
      exact h e (by simp [run_optimal, he])
    have hc : (offload_to_optimal st i.ego i.bss i.resp i.ts).2.counter = st.counter + 1 := by
      rw [offload_to_optimal_state]
      show next_counter (offload_to_optimal st i.ego i.bss i.resp i.ts).1 st.counter
          = st.counter + 1
      rw [ho]
      rfl
    show (run_optimal (offload_to_optimal st i.ego i.bss i.resp i.ts).2 is).1.counter
        = st.counter + (is.length + 1)
    rw [ih _ htail, hc]
    omega

lemma offload_app_optimal_shape (roles : List (Nat × String))
    (resp : String → MetricsResp) (ts : ℚ) (bss : List (Nat × Distance))
    (app appUrl : String) (imm : List Request) (b : Option Request)
    (hok : offload_app_optimal roles resp ts bss app appUrl = .ok (imm, b)) :
    (imm = [] ∨ imm = [⟨appUrl ++ "/init", some (.initBody ts)⟩, ⟨appUrl ++ "/run", none⟩])
    ∧ (b = none ∨ ∃ ip node, b = some ⟨proxy_url ip, some (.proxyBody node app ts)⟩) := by
  unfold offload_app_optimal at hok
  dsimp only at hok
  repeat' split at hok
  all_goals
    first
      | exact Except.noConfusion hok
      | (injection hok with h
         rw [Prod.mk.injEq] at h
         obtain ⟨h1, h2⟩ := h
         subst h1
         subst h2
         first
           | exact ⟨Or.inl rfl, Or.inl rfl⟩
           | exact ⟨Or.inr rfl, Or.inl rfl⟩
           | exact ⟨Or.inl rfl, Or.inr ⟨_, _, rfl⟩⟩)

lemma decide_optimal_fold_mem (roles : List (Nat × String))
    (resp : String → String → MetricsResp) (ts : ℚ) (bss : List (Nat × Distance)) :
    ∀ (l : List (String × String)) (acc : List Request × List Request)
      (imm batch : List Request),
      l.foldlM
          (fun acc p =>
            (offload_app_optimal roles (resp p.1) ts bss p.1 p.2).map
              fun r => (acc.1 ++ r.1, acc.2 ++ r.2.toList)) acc
        = Except.ok (imm, batch) →
      (∀ r ∈ imm, r ∈ acc.1 ∨ ∃ p ∈ l,
          r = ⟨p.2 ++ "/init", some (.initBody ts)⟩ ∨ r = ⟨p.2 ++ "/run", none⟩)
      ∧ (∀ r ∈ batch, r ∈ acc.2
          ∨ ∃ ip node a, r = ⟨proxy_url ip, some (.proxyBody node a ts)⟩) := by
  intro l
  induction l with
  | nil =>
    intro acc imm batch hok
    injection hok with h
    rw [Prod.mk.injEq] at h
    obtain ⟨h1, h2⟩ := h
    subst h1
    subst h2
    exact ⟨fun r hr => Or.inl hr, fun r hr => Or.inl hr⟩
  | cons p l ih =>
    intro acc imm batch hok
    rw [List.foldlM_cons] at hok
    cases happ : offload_app_optimal roles (resp p.1) ts bss p.1 p.2 with
    | error e =>
      rw [happ] at hok
      exact Except.noConfusion hok
    | ok r =>
      obtain ⟨i1, b1⟩ := r
      rw [happ] at hok
      have hok' : l.foldlM
          (fun acc p =>
            (offload_app_optimal roles (resp p.1) ts bss p.1 p.2).map
              fun r => (acc.1 ++ r.1, acc.2 ++ r.2.toList))
          (acc.1 ++ i1, acc.2 ++ b1.toList) = Except.ok (imm, batch) := hok
      obtain ⟨sh1, sh2⟩ := offload_app_optimal_shape roles (resp p.1) ts bss p.1 p.2 i1 b1 happ
      obtain ⟨m1, m2⟩ := ih (acc.1 ++ i1, acc.2 ++ b1.toList) imm batch hok'
      constructor
      · intro r hr
        rcases m1 r hr with hmem | ⟨q, hq, hor⟩
        · rcases List.mem_append.mp hmem with hmem | hmem
          · exact Or.inl hmem
          · rcases sh1 with h | h
            · rw [h] at hmem
              cases hmem
            · rw [h] at hmem
              rcases List.mem_cons.mp hmem with hmem | hmem
              · exact Or.inr ⟨p, List.mem_cons_self p l, Or.inl hmem⟩
              · rcases List.mem_cons.mp hmem with hmem | hmem
                · exact Or.inr ⟨p, List.mem_cons_self p l, Or.inr hmem⟩
                · cases hmem
        · exact Or.inr ⟨q, List.mem_cons_of_mem p hq, hor⟩
      · intro r hr
        rcases m2 r hr with hmem | hsh
        · rcases List.mem_append.mp hmem with hmem | hmem
          · exact Or.inl hmem
          · rcases sh2 with h | ⟨ip, node, h⟩
            · rw [h] at hmem
              cases hmem
            · rw [h] at hmem
              rcases List.mem_cons.mp hmem with hmem | hmem
              · exact Or.inr ⟨ip, node, p.1, hmem⟩
              · cases hmem
        · exact Or.inr hsh


/-! ## Claim theorems -/

/-- C1: with a covered nearest base station whose role and address resolve,
but a metrics mapping that comes back empty (every node unreachable), the
decision cycle of `offload_to_optimal` does NOT route to the cloud fallback:
the subscript `sorted(edge_metrics.items(), ...)[0]` raises IndexError,
which propagates out of the cycle.  This evaluates the embedded code at the
failing input and documents the code bug against the claim. -/
theorem optimal_empty_metrics_raises :
    (offload_to_optimal st_ex ego_ex [(1, 10)] resp_down 0).1
      = .error "IndexError: list index out of range" := by
  norm_num [offload_to_optimal, decide_optimal, app_types, offload_app_optimal,
    find_nearest_base_station, sort_base_stations, List.insertionSort,
    optimal_bs_coverage_thresh, st_ex, initial_state, roles_ex,
    get_metrics, edge_nodes, host_ips, node_metric, resp_down,
    sorted_by_metric, List.foldlM, List.filterMap_cons, List.filterMap_nil,
    Except.map, Except.bind, bind]

/-- C2, counterexample: with no base station known, the whole
`offload_to_optimal` invocation succeeds with NO immediate cloud post, an
empty batch and an empty dispatch list, refuting the claim that a POST to
the cloud fallback URL with `/init` and then `/run` is issued for each
task type in the no-coverage case (the else branch only prints). -/
theorem no_coverage_no_cloud_post :
    (offload_to_optimal st_ex ego_ex [] resp_down 0).1 = .ok ⟨[], [], []⟩ := by
  norm_num [offload_to_optimal, decide_optimal, app_types, offload_app_optimal,
    find_nearest_base_station, sort_base_stations, List.insertionSort,
    st_ex, initial_state, roles_ex, List.foldlM, dispatch_posts,
    Except.map, Except.bind, bind, pure, Except.pure]

/-- C2, amended: when no base station is known or the nearest one is at or
beyond the coverage threshold, the per-app decision of both offload paths
issues no request at all for that task type (the cloud decision is only
logged); in particular no `/init` or `/run` POST is made there. -/
theorem no_coverage_logs_only (roles : List (Nat × String))
    (resp : String → MetricsResp) (ts : ℚ) (bss : List (Nat × Distance))
    (app appUrl : String)
    (h : find_nearest_base_station bss = none
      ∨ ∃ nb, find_nearest_base_station bss = some nb ∧ optimal_bs_coverage_thresh ≤ nb.2) :
    offload_app_optimal roles resp ts bss app appUrl = .ok ([], none)
    ∧ offload_app_nearest roles resp ts bss app = .ok none := by
  rcases h with h | ⟨nb, hnb, hge⟩
  · constructor
    · unfold offload_app_optimal; rw [h]
    · unfold offload_app_nearest; rw [h]
  · have hn : ¬ (nb.2 < optimal_bs_coverage_thresh) := not_lt.mpr hge
    have hn2 : ¬ (nb.2 < nearest_bs_coverage_thresh) := hn
    constructor
    · unfold offload_app_optimal; rw [hnb]; dsimp only; rw [if_neg hn]
    · unfold offload_app_nearest; rw [hnb]; dsimp only; rw [if_neg hn2]

/-- C2, witness: the amended claim applied at the concrete no-base-station
input. -/
theorem no_coverage_logs_only_witness :
    offload_app_optimal roles_ex (resp_down "mobilenet") 0 [] "mobilenet" "u" = .ok ([], none)
    ∧ offload_app_nearest roles_ex (resp_down "mobilenet") 0 [] "mobilenet" = .ok none :=
  no_coverage_logs_only roles_ex (resp_down "mobilenet") 0 [] "mobilenet" "u" (Or.inl rfl)

/-- C3, counterexample: a single base station at distance exactly 120 with
threshold 120 is judged NOT covered (the code uses a strict less-than),
refuting the boundary direction of the claim, which requires distance equal
to the threshold to be covered. -/
theorem coverage_boundary_uncovered :
    covered [(1, (120 : ℚ))] 120 = false := by decide

/-- C3, amended: the coverage gate answers uncovered exactly when the
ranked list is empty or the nearest distance is greater than OR EQUAL to
the threshold; a nearest distance strictly below the threshold is covered. -/
theorem coverage_gate_amended (bss : List (Nat × Distance)) (thresh : ℚ) :
    covered bss thresh = false
      ↔ sort_base_stations bss = []
        ∨ ∃ nb, find_nearest_base_station bss = some nb ∧ thresh ≤ nb.2 := by
  unfold covered
  cases h : find_nearest_base_station bss with
  | none =>
    simp only [h]
    have : sort_base_stations bss = [] := List.head?_eq_none_iff.mp h
    simp [this]
  | some nb =>
    have hne : sort_base_stations bss ≠ [] := by
      intro hnil
      rw [find_nearest_base_station, hnil] at h
      cases h
    simp only [h]
    constructor
    · intro hd
      refine Or.inr ⟨nb, rfl, ?_⟩
      have := of_decide_eq_false hd
      exact not_lt.mp this
    · rintro (hnil | ⟨nb', hnb', hle⟩)
      · exact absurd hnil hne
      · injection hnb' with e
        subst e
        exact decide_eq_false (not_lt.mpr hle)

/-- C4: the base-station ranker output is sorted ascending by distance
with ties broken ascending by identifier, is a permutation of its input
pairs, is empty exactly when no base station is known, and the
nearest-station lookup is the head of that list (nothing when empty). -/
theorem ranker_sorted (bss : List (Nat × Distance)) :
    List.Sorted bs_key_le (sort_base_stations bss)
    ∧ (sort_base_stations bss).Perm bss
    ∧ (sort_base_stations bss = [] ↔ bss = [])
    ∧ find_nearest_base_station bss = (sort_base_stations bss).head? := by
  refine ⟨List.sorted_insertionSort bs_key_le bss, List.perm_insertionSort bs_key_le bss,
    ?_, rfl⟩
  have hp : (sort_base_stations bss).Perm bss := List.perm_insertionSort bs_key_le bss
  constructor
  · intro h
    rw [h] at hp
    exact hp.symm.eq_nil
  · intro h
    subst h
    rfl

/-- C5: the metrics mapping contains exactly the queried nodes whose call
returned status 200 with a nonzero reported pod count, each mapped to the
sum of its instances p50 latencies divided by the reported instance count;
in particular p50 samples 10, 20, 30 over 3 instances yield mean 20. -/
theorem metrics_collector_exact (resp : String → MetricsResp) (node : String) (v : ℚ) :
    ((node, v) ∈ get_metrics resp
      ↔ node ∈ edge_nodes ∧ (resp node).status_code = 200 ∧ (resp node).pod_number ≠ 0
        ∧ v = ((resp node).pod_instances.map Prod.snd).sum / ((resp node).pod_number : ℚ))
    ∧ node_metric ⟨200, 3, [("i1", 10), ("i2", 20), ("i3", 30)]⟩ = some 20 := by
  constructor
  · rw [mem_get_metrics, node_metric_eq_some]
  · rw [node_metric_eq_some]
    norm_num

/-- C6: when the metrics mapping is nonempty and its minimum mean latency
is within the ceiling, the decision selects the node of minimum mean
latency, breaking ties toward the smaller role name, and appends exactly
one offload request whose URL is the entry base station proxy address and
whose payload names the selected node, the task type and the request-start
timestamp. -/
theorem routing_selects_optimal (roles : List (Nat × String))
    (resp : String → MetricsResp) (ts : ℚ) (bss : List (Nat × Distance))
    (app appUrl host ip : String) (nb : Nat × Distance)
    (h1 : find_nearest_base_station bss = some nb)
    (h2 : nb.2 < optimal_bs_coverage_thresh)
    (h3 : roles.lookup nb.1 = some host)
    (h4 : host_ips.lookup host = some ip)
    (h5 : ∃ p ∈ get_metrics resp, p.2 ≤ time_limit) :
    ∃ opt ∈ get_metrics resp,
      offload_app_optimal roles resp ts bss app appUrl
          = .ok ([], some ⟨proxy_url ip, some (.proxyBody opt.1 app ts)⟩)
        ∧ (∀ q ∈ get_metrics resp, opt.2 ≤ q.2)
        ∧ (∀ q ∈ get_metrics resp, q.2 = opt.2 → opt.1 ≤ q.1) := by
  obtain ⟨p, hp, hple⟩ := h5
  have hne : get_metrics resp ≠ [] := by
    intro h
    rw [h] at hp
    cases hp
  obtain ⟨opt, hhead, hmem, hle, hfirst⟩ := optimal_head (get_metrics resp) hne
  have hlook : (get_metrics resp).lookup opt.1 = some opt.2 :=
    lookup_eq_of_pairwise (get_metrics_names resp) opt hmem
  have hnot : ¬ (opt.2 > time_limit) := not_lt.mpr (le_trans (hle p hp) hple)
  refine ⟨opt, hmem, ?_, hle, hfirst (get_metrics_names resp)⟩
  unfold offload_app_optimal
  rw [h1]
  dsimp only
  rw [if_pos h2, h3]
  dsimp only
  rw [h4]
  dsimp only
  rw [hhead]
  dsimp only
  rw [hlook]
  dsimp only
  rw [if_neg hnot]

/-- C6, witness: the routing theorem applied at a concrete covered input
where only edge1 reports metrics. -/
theorem routing_selects_optimal_witness :
    ∃ opt ∈ get_metrics resp_edge1,
      offload_app_optimal roles_ex resp_edge1 0 [(1, 10)] "mobilenet"
          "https://serverless-mobilenet-6ag2jbmdqa-uc.a.run.app"
          = .ok ([], some ⟨proxy_url "138.246.237.7", some (.proxyBody opt.1 "mobilenet" 0)⟩)
        ∧ (∀ q ∈ get_metrics resp_edge1, opt.2 ≤ q.2)
        ∧ (∀ q ∈ get_metrics resp_edge1, q.2 = opt.2 → opt.1 ≤ q.1) :=
  routing_selects_optimal roles_ex resp_edge1 0 [(1, 10)] "mobilenet"
    "https://serverless-mobilenet-6ag2jbmdqa-uc.a.run.app" "edge1" "138.246.237.7" (1, 10)
    rfl (by norm_num [optimal_bs_coverage_thresh]) (by decide) (by decide)
    ⟨("edge1", 5), by rw [get_metrics_resp_edge1]; simp, by norm_num [time_limit]⟩

/-- C7: the dispatch-cycle counter starts at 1, each completed top-level
offload invocation increments it exactly once (and nothing ever resets
it), the batch of an invocation is replayed counter times so that it
issues batch-length times counter POSTs, a run of n completed invocations
from a fresh scheduler ends with counter n+1, and the worker pool width
is the constant 4. -/
theorem dispatch_cycle_replay :
    (∀ vid roles, (initial_state vid roles).counter = 1)
    ∧ (∀ st ego bss resp ts o,
        (offload_to_optimal st ego bss resp ts).1 = .ok o →
        (offload_to_optimal st ego bss resp ts).2.counter = st.counter + 1
        ∧ o.dispatched = dispatch_posts st.counter o.batch
        ∧ o.dispatched.length = o.batch.length * st.counter)
    ∧ (∀ st ego bss resp ts o,
        (offload_to_nearest st ego bss resp ts).1 = .ok o →
        (offload_to_nearest st ego bss resp ts).2.counter = st.counter + 1)
    ∧ (∀ vid roles invs,
        (∀ e ∈ (run_optimal (initial_state vid roles) invs).2, ∃ o, e = .ok o) →
        (run_optimal (initial_state vid roles) invs).1.counter = invs.length + 1)
    ∧ max_workers = 4 := by
  refine ⟨fun vid roles => rfl, ?_, ?_, ?_, rfl⟩
  · intro st ego bss resp ts o hok
    have hc : (offload_to_optimal st ego bss resp ts).2.counter = st.counter + 1 := by
      rw [offload_to_optimal_state]
      show next_counter (offload_to_optimal st ego bss resp ts).1 st.counter = st.counter + 1
      rw [hok]
      rfl
    have hdis : o.dispatched = dispatch_posts st.counter o.batch := by
      unfold offload_to_optimal at hok
      cases h : decide_optimal st.base_station_roles resp ts bss with
      | error e => rw [h] at hok; exact Except.noConfusion hok
      | ok v =>
        obtain ⟨imm, batch⟩ := v
        rw [h] at hok
        dsimp only at hok
        injection hok with h2
        rw [← h2]
    exact ⟨hc, hdis, by rw [hdis, length_dispatch_posts]⟩
  · intro st ego bss resp ts o hok
    rw [offload_to_nearest_state]
    show next_counter (offload_to_nearest st ego bss resp ts).1 st.counter = st.counter + 1
    rw [hok]
    rfl
  · intro vid roles invs hall
    rw [counter_run_optimal invs (initial_state vid roles) hall]
    show 1 + invs.length = invs.length + 1
    omega

/-- C7, witness: the counter conjunct applied at a concrete invocation with
no base stations. -/
theorem dispatch_cycle_replay_witness :
    (offload_to_optimal st_ex ego_ex [] resp_down 0).2.counter = st_ex.counter + 1
    ∧ max_workers = 4 := by
  have heval : (offload_to_optimal st_ex ego_ex [] resp_down 0).1 = .ok ⟨[], [], []⟩ := by
    norm_num [offload_to_optimal, decide_optimal, app_types, offload_app_optimal,
      find_nearest_base_station, sort_base_stations, List.insertionSort,
      st_ex, initial_state, roles_ex, List.foldlM, dispatch_posts,
      Except.map, Except.bind, bind, pure, Except.pure]
  exact ⟨(dispatch_cycle_replay.2.1 st_ex ego_ex [] resp_down 0 ⟨[], [], []⟩ heval).1,
    dispatch_cycle_replay.2.2.2.2⟩

/-- C8, counterexample: the two coverage-gate call sites use the SAME
threshold, and the nearest-only one is not 50: both local variables
`bs_coverage_thresh` are 120, refuting the claim of a strict ~50 regime
for the nearest-only decision. -/
theorem thresholds_equal_not_distinct :
    nearest_bs_coverage_thresh = optimal_bs_coverage_thresh
    ∧ nearest_bs_coverage_thresh ≠ 50 := by
  constructor
  · rfl
  · norm_num [nearest_bs_coverage_thresh]

/-- C8, amended: both coverage-gate call sites use the same hardcoded
threshold of 120 distance units. -/
theorem both_call_sites_use_120 :
    optimal_bs_coverage_thresh = 120 ∧ nearest_bs_coverage_thresh = 120 :=
  ⟨rfl, rfl⟩

/-- C9: each top-level offload invocation changes only the stored ego
position and (on completion) the dispatch-cycle counter of the scheduler
instance; the vehicle reference and the identifier-to-role map in the
state are untouched, and the role-to-address map, task-type map, ports
and latency ceiling are embedded as immutable constants that no operation
writes. -/
theorem offload_frame (st : SchedulerState) (ego : Position)
    (bss : List (Nat × Distance)) (resp : String → String → MetricsResp) (ts : ℚ) :
    (offload_to_optimal st ego bss resp ts).2
        = { st with
            ego_pos := some ego
            counter := next_counter (offload_to_optimal st ego bss resp ts).1 st.counter }
    ∧ (offload_to_nearest st ego bss resp ts).2
        = { st with
            ego_pos := some ego
            counter := next_counter (offload_to_nearest st ego bss resp ts).1 st.counter } :=
  ⟨offload_to_optimal_state st ego bss resp ts, offload_to_nearest_state st ego bss resp ts⟩

/-- C10: in a completed `offload_to_optimal` invocation the accumulated
batch holds only proxy requests, every immediately issued post is a cloud
`/init` or `/run` request of a configured task type issued once at
decision time, the decision outputs do not depend on the counter (only
the dispatched replay does), and a request is dispatched exactly when the
counter is positive and the request is in the batch. -/
theorem cloud_posts_once_not_replayed (st : SchedulerState) (ego : Position)
    (bss : List (Nat × Distance)) (resp : String → String → MetricsResp) (ts : ℚ)
    (o : OffloadOutcome)
    (hok : (offload_to_optimal st ego bss resp ts).1 = .ok o) :
    (∀ r ∈ o.batch, ∃ ip node a, r = ⟨proxy_url ip, some (.proxyBody node a ts)⟩)
    ∧ (∀ r ∈ o.immediate, ∃ p ∈ app_types,
        r = ⟨p.2 ++ "/init", some (.initBody ts)⟩ ∨ r = ⟨p.2 ++ "/run", none⟩)
    ∧ (∀ c, (offload_to_optimal { st with counter := c } ego bss resp ts).1
        = .ok ⟨o.immediate, o.batch, dispatch_posts c o.batch⟩)
    ∧ (∀ r, r ∈ o.dispatched ↔ 0 < st.counter ∧ r ∈ o.batch) := by
  unfold offload_to_optimal at hok
  cases h : decide_optimal st.base_station_roles resp ts bss with
  | error e => rw [h] at hok; exact Except.noConfusion hok
  | ok v =>
    obtain ⟨imm, batch⟩ := v
    rw [h] at hok
    dsimp only at hok
    injection hok with h2
    have hfold : app_types.foldlM
        (fun acc p =>
          (offload_app_optimal st.base_station_roles (resp p.1) ts bss p.1 p.2).map
            fun r => (acc.1 ++ r.1, acc.2 ++ r.2.toList)) ([], [])
        = Except.ok (imm, batch) := h
    obtain ⟨m1, m2⟩ := decide_optimal_fold_mem st.base_station_roles resp ts bss
      app_types ([], []) imm batch hfold
    subst h2
    refine ⟨?_, ?_, ?_, ?_⟩
    · intro r hr
      rcases m2 r hr with hmem | hsh
      · cases hmem
      · exact hsh
    · intro r hr
      rcases m1 r hr with hmem | ⟨p, hp, hor⟩
      · cases hmem
      · exact ⟨p, hp, hor⟩
    · intro c
      unfold offload_to_optimal
      have hb : ({ st with counter := c } : SchedulerState).base_station_roles
          = st.base_station_roles := rfl
      rw [hb, h]
    · intro r
      exact mem_dispatch_posts st.counter batch r

/-- C10, witness: the theorem applied at the concrete no-base-station
input, whose outcome is empty. -/
theorem cloud_posts_once_not_replayed_witness :
    (∀ r ∈ (OffloadOutcome.mk [] [] []).batch,
        ∃ ip node a, r = ⟨proxy_url ip, some (.proxyBody node a 0)⟩)
    ∧ (∀ r ∈ (OffloadOutcome.mk [] [] []).immediate, ∃ p ∈ app_types,
        r = ⟨p.2 ++ "/init", some (.initBody 0)⟩ ∨ r = ⟨p.2 ++ "/run", none⟩)
    ∧ (∀ c, (offload_to_optimal { st_ex with counter := c } ego_ex [] resp_down 0).1
        = .ok ⟨(OffloadOutcome.mk [] [] []).immediate, (OffloadOutcome.mk [] [] []).batch,
               dispatch_posts c (OffloadOutcome.mk [] [] []).batch⟩)
    ∧ (∀ r, r ∈ (OffloadOutcome.mk [] [] []).dispatched
        ↔ 0 < st_ex.counter ∧ r ∈ (OffloadOutcome.mk [] [] []).batch) := by
  have heval : (offload_to_optimal st_ex ego_ex [] resp_down 0).1 = .ok ⟨[], [], []⟩ := by
    norm_num [offload_to_optimal, decide_optimal, app_types, offload_app_optimal,
      find_nearest_base_station, sort_base_stations, List.insertionSort,
      st_ex, initial_state, roles_ex, List.foldlM, dispatch_posts,
      Except.map, Except.bind, bind, pure, Except.pure]
  exact cloud_posts_once_not_replayed st_ex ego_ex [] resp_down 0 ⟨[], [], []⟩ heval

end OffloadingScheduler
